import Mathlib

/-!
Verification development for the talkat voice-capture pipeline.

The definitions below are a shallow embedding of the capture, calibration,
transport and process-management code in `src/talkat/record.py`,
`src/talkat/main.py` and `src/talkat/process_manager.py`.  Machine audio
I/O (PyAudio reads) is represented by explicit event lists; the RMS volume
a chunk produces in the volume estimator is carried as data on the chunk,
since every decision in the capture loops depends on the raw bytes and the
computed volume only.  Rational numbers stand in for Python floats.
-/

namespace Talkat

/-- Chunk is one successful `stream.read` result: the raw bytes returned,
together with the RMS volume the volume estimator computes for those bytes
(`np.sqrt(np.mean(audio_data.astype(np.float32) ** 2))` in `record.py`). -/
structure Chunk where
  data : List Nat
  vol : ℚ
deriving Repr, DecidableEq

/-- ReadEvent is the outcome of one `stream.read` call inside a capture
loop: a successful read, an `OSError` whose errno is
`pyaudio.paInputOverflowed`, or any other `OSError`. -/
inductive ReadEvent where
  | ok (c : Chunk)
  | overflow
  | fatal
deriving Repr, DecidableEq

/-- dequeAppend models `collections.deque` with a maxlen bound of `n`:
appending pushes the new element on the right and drops the oldest elements
on the left once the bound is exceeded. -/
def dequeAppend (n : Nat) (xs : List α) (x : α) : List α :=
  let ys := xs ++ [x]
  ys.drop (ys.length - n)

/-- smoothedOf models the volume smoothing of both capture loops: the code
appends the current volume to `volume_history` (a deque bounded at the
smoothing window 3) and then takes the arithmetic mean of the history,
falling back to the raw volume if the history were empty.  This function is
applied to the already-appended history. -/
def smoothedOf (hist : List ℚ) (v : ℚ) : ℚ :=
  if hist.length > 0 then hist.sum / (hist.length : ℚ) else v

/-- chunksOfDuration models the repeated pattern `int(seconds * RATE / CHUNK)`
that converts a duration in seconds into a chunk count. -/
def chunksOfDuration (seconds : ℚ) (rate chunk : Nat) : Nat :=
  (⌊seconds * (rate : ℚ) / (chunk : ℚ)⌋).toNat

/-- VadParams gathers the numeric configuration both capture loops derive
before entering their loop: the silence threshold, the pre-speech ring size
`int(PRE_SPEECH_PADDING_DURATION * RATE / CHUNK)`, the silence stop count
`int(silence_duration * RATE / CHUNK)` and the total chunk budget
`int(MAX_RECORDING_DURATION_SECONDS * RATE / CHUNK)`. -/
structure VadParams where
  threshold : ℚ
  numPrePad : Nat
  maxSilent : Nat
  maxTotal : Nat
deriving Repr, DecidableEq

/-- noVad mirrors `no_vad_mode: bool = silence_threshold == 0` in
`stream_audio_with_vad` (record.py line 440). -/
def VadParams.noVad (p : VadParams) : Bool :=
  p.threshold == 0

/-- recordVadParams derives the parameters exactly as `record_audio_with_vad`
does with RATE 16000 and CHUNK 1024 (record.py lines 206-209, 274, 279, 285). -/
def recordVadParams (threshold pre sd md : ℚ) : VadParams :=
  ⟨threshold, chunksOfDuration pre 16000 1024,
    chunksOfDuration sd 16000 1024, chunksOfDuration md 16000 1024⟩

/-- streamVadParams derives the parameters exactly as `stream_audio_with_vad`
does, with `CHUNK_SAMPLES = int(RATE * chunk_size_ms / 1000)` (record.py
lines 408-411, 489, 494, 504). -/
def streamVadParams (threshold pre sd md : ℚ) (ms : Nat) : VadParams :=
  let cs := 16000 * ms / 1000
  ⟨threshold, chunksOfDuration pre 16000 cs,
    chunksOfDuration sd 16000 cs, chunksOfDuration md 16000 cs⟩

/-- RecState is the loop state of `record_audio_with_vad` (record.py lines
271-286): the pre-speech ring buffer, the recorded segments, the frames of
the segment being captured, the speaking flag, the consecutive-silence
counter, the smoothing history, the processed-chunk counter, and a flag for
the two `break` statements (silence stop and fatal read error). -/
structure RecState where
  preBuffer : List Chunk
  segments : List (List Chunk)
  segFrames : List Chunk
  isSpeaking : Bool
  silentCount : Nat
  volHist : List ℚ
  total : Nat
  done : Bool
deriving Repr, DecidableEq

/-- initState is the state on entry to the capture loop of
`record_audio_with_vad`. -/
def initState : RecState :=
  ⟨[], [], [], false, 0, [], 0, false⟩

/-- recordStep is the body of the `while` loop of `record_audio_with_vad`
(record.py lines 289-353): an overflow read is skipped without side effects,
any other read error breaks out of the loop, and a successful read updates
the counter, the smoothing history and then follows the VAD branches.  The
flush of the pre-speech buffer on the speaking transition does NOT clear the
buffer: the `pre_speech_buffer.clear()` call is commented out (line 333). -/
def recordStep (p : VadParams) (e : ReadEvent) (s : RecState) : RecState :=
  match e with
  | .overflow => s
  | .fatal => { s with done := true }
  | .ok c =>
    let s1 := { s with total := s.total + 1 }
    if c.data.length / 2 = 0 then s1
    else
      let hist := dequeAppend 3 s1.volHist c.vol
      let sm := smoothedOf hist c.vol
      let s2 := { s1 with volHist := hist }
      if sm > p.threshold then
        if s2.isSpeaking then
          { s2 with segFrames := s2.segFrames ++ [c], silentCount := 0 }
        else
          { s2 with isSpeaking := true,
                    segFrames := s2.segFrames ++ s2.preBuffer ++ [c],
                    silentCount := 0 }
      else
        if s2.isSpeaking then
          let s3 := { s2 with segFrames := s2.segFrames ++ [c],
                              silentCount := s2.silentCount + 1 }
          if s3.silentCount > p.maxSilent then
            { s3 with segments := s3.segments ++ [s3.segFrames],
                      segFrames := [], isSpeaking := false, done := true }
          else s3
        else
          { s2 with preBuffer := dequeAppend p.numPrePad s2.preBuffer c }

/-- recordRun drives `recordStep` over a list of read events; the loop
condition `total_chunks_processed < max_total_chunks` is checked before each
read and a set `done` flag models having left the loop through `break`. -/
def recordRun (p : VadParams) : List ReadEvent → RecState → RecState
  | [], s => s
  | e :: es, s =>
    if s.done = false ∧ s.total < p.maxTotal then
      recordRun p es (recordStep p e s)
    else s

/-- recordUtterances is the list of speech segments
`record_audio_with_vad` ends up with: the segments appended inside the loop
plus, if `current_segment_frames` is nonempty when the loop ends, that
(possibly incomplete) segment finalized after the loop (record.py
lines 371-374). -/
def recordUtterances (p : VadParams) (es : List ReadEvent) : List (List Chunk) :=
  let s := recordRun p es initState
  if s.segFrames = [] then s.segments else s.segments ++ [s.segFrames]

/-- record_audio_with_vad composes the whole function: `None` when no
microphone is found or the stream cannot be opened, `None` when no speech
segment was recorded, otherwise the joined bytes of all segments together
with the sample rate 16000. -/
def record_audio_with_vad (p : VadParams) (micFound openOk : Bool)
    (es : List ReadEvent) : Option (List Nat × Nat) :=
  if micFound = false then none
  else if openOk = false then none
  else
    let segs := recordUtterances p es
    if segs = [] then none
    else
      let final := (segs.map (fun u => (u.map Chunk.data).flatten)).flatten
      if final = [] then none else some (final, 16000)

/-- StreamItem is a value yielded by the generator `stream_audio_with_vad`:
first the sample rate as an int, then raw audio chunks. -/
inductive StreamItem where
  | rate (n : Nat)
  | chunk (c : Chunk)
deriving Repr, DecidableEq

/-- StreamState is the loop state of `stream_audio_with_vad` (record.py
lines 489-506); instead of accumulating segments it accumulates the audio
chunks yielded so far, and it additionally tracks
`speech_has_started_and_padded`. -/
structure StreamState where
  preBuffer : List Chunk
  yields : List Chunk
  isSpeaking : Bool
  speechPadded : Bool
  silentCount : Nat
  volHist : List ℚ
  total : Nat
  done : Bool
deriving Repr, DecidableEq

/-- streamInit is the state on entry to the capture loop of
`stream_audio_with_vad`. -/
def streamInit : StreamState :=
  ⟨[], [], false, false, 0, [], 0, false⟩

/-- streamStep is the body of the `while` loop of `stream_audio_with_vad`
(record.py lines 509-576).  It differs from `recordStep` in three ways: in
no-VAD mode every chunk is yielded unconditionally; on the speaking
transition the pre-speech buffer IS cleared after being yielded (line 556);
and once `speech_has_started_and_padded` is set, silent chunks outside
speech are no longer buffered. -/
def streamStep (p : VadParams) (e : ReadEvent) (s : StreamState) : StreamState :=
  match e with
  | .overflow => s
  | .fatal => { s with done := true }
  | .ok c =>
    let s1 := { s with total := s.total + 1 }
    if c.data.length / 2 = 0 then s1
    else
      let hist := dequeAppend 3 s1.volHist c.vol
      let sm := smoothedOf hist c.vol
      let s2 := { s1 with volHist := hist }
      if p.noVad then { s2 with yields := s2.yields ++ [c] }
      else if sm > p.threshold then
        if s2.isSpeaking then
          { s2 with yields := s2.yields ++ [c], silentCount := 0 }
        else
          { s2 with isSpeaking := true,
                    yields := s2.yields ++ s2.preBuffer ++ [c],
                    preBuffer := [],
                    speechPadded := true,
                    silentCount := 0 }
      else if s2.isSpeaking then
        let s3 := { s2 with yields := s2.yields ++ [c],
                            silentCount := s2.silentCount + 1 }
        if s3.silentCount > p.maxSilent then { s3 with done := true } else s3
      else if s2.speechPadded = false then
        { s2 with preBuffer := dequeAppend p.numPrePad s2.preBuffer c }
      else s2

/-- streamRun drives `streamStep` over a list of read events, with the same
loop condition and break handling as `recordRun`. -/
def streamRun (p : VadParams) : List ReadEvent → StreamState → StreamState
  | [], s => s
  | e :: es, s =>
    if s.done = false ∧ s.total < p.maxTotal then
      streamRun p es (streamStep p e s)
    else s

/-- stream_audio_with_vad models the whole generator: it yields nothing at
all when no microphone is found (record.py line 449) or when the stream
cannot be opened (line 470); otherwise its first yielded item is the sample
rate 16000 (line 473), produced before the capture loop starts, followed by
the audio chunks the loop yields. -/
def stream_audio_with_vad (p : VadParams) (micFound openOk : Bool)
    (es : List ReadEvent) : List StreamItem :=
  if micFound = false then []
  else if openOk = false then []
  else StreamItem.rate 16000 ::
    ((streamRun p es streamInit).yields.map StreamItem.chunk)

/-- asciiBytes is the UTF-8 encoding of an ASCII-only string as a byte
list. -/
def asciiBytes (s : String) : List Nat :=
  s.data.map Char.toNat

/-- jsonRateObj is the exact text `json.dumps` produces for the metadata
dictionary sent by `request_data_generator` in `run_listen_command`
(main.py line 245-246): a single JSON object with the key "rate" and the
integer sample rate. -/
def jsonRateObj (rate : Nat) : String :=
  "\x7b\"rate\": " ++ toString rate ++ "\x7d"

/-- requestBodyChunks lists the byte chunks `request_data_generator` yields
(main.py lines 243-253): the metadata line plus b"\n" first, then every
audio chunk whose bytes are truthy, i.e. nonempty, unchanged. -/
def requestBodyChunks (rate : Nat) (chunks : List Chunk) : List (List Nat) :=
  (asciiBytes (jsonRateObj rate) ++ [10]) ::
    (chunks.filter (fun c => !c.data.isEmpty)).map Chunk.data

/-- requestBody is the full HTTP request body: the concatenation of
everything the generator yields. -/
def requestBody (rate : Nat) (chunks : List Chunk) : List Nat :=
  (requestBodyChunks rate chunks).flatten

/-- ServerResult models the outcome of the `requests.post` call in
`run_listen_command`: the four distinguished failure kinds, or a successful
JSON response carrying an optional "text" field. -/
inductive ServerResult where
  | connError
  | timeout
  | reqError
  | badJson
  | ok (textField : Option String)
deriving Repr, DecidableEq

/-- pyStrip models the Python method `str.strip()`: whitespace is removed from both
ends of the string. -/
def pyStrip (s : String) : String :=
  ⟨((s.data.dropWhile Char.isWhitespace).reverse.dropWhile
      Char.isWhitespace).reverse⟩

/-- ListenOutcome is what one run of `run_listen_command` observably does:
whether a network connection to the model server was opened, the request
body it sent if so, the process exit code, and the recognized text. -/
structure ListenOutcome where
  networkOpened : Bool
  body : List Nat
  exitCode : Nat
  text : String
deriving Repr, DecidableEq

/-- chunkItems extracts the audio chunks from a generator item list. -/
def chunkItems (items : List StreamItem) : List Chunk :=
  items.filterMap (fun i => match i with
    | .chunk c => some c
    | .rate _ => none)

/-- run_listen_command models main.py lines 206-331: the first generator
item is drawn with `next`; an empty generator or a non-int first item is
reported as "no speech detected" with exit code 0 and no network call;
otherwise `requests.post` is issued with the request body, the four request
failure kinds exit with code 1, and a successful response yields
`response_json.get("text", "").strip()` and exit code 0 whether or not any
text was recognized. -/
def run_listen_command (items : List StreamItem) (server : ServerResult) :
    ListenOutcome :=
  match items with
  | [] => ⟨false, [], 0, ""⟩
  | StreamItem.chunk _ :: _ => ⟨false, [], 0, ""⟩
  | StreamItem.rate r :: rest =>
    let body := requestBody r (chunkItems rest)
    match server with
    | .connError => ⟨true, body, 1, ""⟩
    | .timeout => ⟨true, body, 1, ""⟩
    | .reqError => ⟨true, body, 1, ""⟩
    | .badJson => ⟨true, body, 1, ""⟩
    | .ok tf => ⟨true, body, 0, pyStrip (tf.getD "")⟩

/-- percentile models `np.percentile(a, q)` with the default linear
interpolation: on the sorted samples, the position q/100*(n-1) is split
into an integer part and a fractional part, and the result interpolates
between the two neighbouring order statistics. -/
def percentile (xs : List ℚ) (q : ℚ) : ℚ :=
  let ys := List.insertionSort (fun a b => a ≤ b) xs
  let n := ys.length
  if n = 0 then 0
  else
    let pos : ℚ := q / 100 * ((n : ℚ) - 1)
    let lo : Nat := (⌊pos⌋).toNat
    let frac : ℚ := pos - (lo : ℚ)
    let a := ys.getD lo 0
    let b := ys.getD (lo + 1) a
    a + frac * (b - a)

/-- calibrate_microphone models the calibration routine of record.py from
the volume samples on: a missing microphone, a stream-open failure or an
empty sample list return the configured fallback threshold (lines 68-77,
90-99, 128-135); otherwise the threshold is the 95th percentile of the
samples (line 153), clamped to the configured band
[silence_threshold_min, silence_threshold_max] (lines 160-165), and the
return statement additionally clamps to the hard-coded band [50, 5000]
(lines 190-192). -/
def calibrate_microphone (tmin tmax fallback : ℚ) (micFound openOk : Bool)
    (volumes : List ℚ) : ℚ :=
  if micFound = false then fallback
  else if openOk = false then fallback
  else if volumes = [] then fallback
  else
    let p95 := percentile volumes 95
    let t1 := max p95 tmin
    let t2 := min t1 tmax
    max 50 (min t2 5000)

/-- PidEnv is the environment `ProcessManager.is_running` inspects: whether
the PID file exists, the PID parsed from it (`none` models an unreadable
file or invalid content, i.e. the OSError/ValueError handler), which PIDs
are live (`os.kill(pid, 0)` not raising ProcessLookupError), and for each
PID whether `/proc/pid/cmdline` exists and what it contains. -/
structure PidEnv where
  pidFilePresent : Bool
  pidFileValue : Option Nat
  alive : Nat → Bool
  cmdlinePresent : Nat → Bool
  cmdline : Nat → List Char

/-- listStartsWith decides whether the second list begins with the first. -/
def listStartsWith : List Char → List Char → Bool
  | [], _ => true
  | _ :: _, [] => false
  | a :: as, b :: bs => a == b && listStartsWith as bs

/-- listHasSub decides whether the needle occurs contiguously inside the
haystack. -/
def listHasSub (needle : List Char) : List Char → Bool
  | [] => listStartsWith needle []
  | b :: bs => listStartsWith needle (b :: bs) || listHasSub needle bs

/-- isTalkatCmdline models the identity check `"talkat" in cmdline`
(process_manager.py line 99). -/
def isTalkatCmdline (cl : List Char) : Bool :=
  listHasSub "talkat".data cl

/-- RunningCheck pairs the tuple `is_running` returns with whether it
removed the PID file (via `cleanup_pid_file`). -/
structure RunningCheck where
  running : Bool
  pid : Option Nat
  removedPidFile : Bool
deriving Repr, DecidableEq

/-- is_running models `ProcessManager.is_running` (process_manager.py lines
75-116): (False, None) when the PID file is absent; stale-file cleanup and
(False, None) when the file is unreadable, when the PID is not live, or
when the command line of the live process does not contain "talkat"; and
(True, pid) only for a live PID whose /proc cmdline exists and contains
"talkat". -/
def is_running (env : PidEnv) : RunningCheck :=
  if env.pidFilePresent = false then ⟨false, none, false⟩
  else
    match env.pidFileValue with
    | none => ⟨false, none, true⟩
    | some pid =>
      if env.alive pid = false then ⟨false, none, true⟩
      else if env.cmdlinePresent pid && isTalkatCmdline (env.cmdline pid) then
        ⟨true, some pid, false⟩
      else ⟨false, none, true⟩

/-- Sig lists the three signals the lifecycle code manipulates. -/
inductive Sig where
  | sigint
  | sigterm
  | sighup
deriving Repr, DecidableEq

/-- Disp is a signal disposition: a registered Python handler, SIG_IGN, or
the inherited default disposition. -/
inductive Disp where
  | handler
  | ignored
  | dfl
deriving Repr, DecidableEq

/-- setup_signal_handlers models process_manager.py lines 279-284: a
graceful-shutdown handler on SIGINT and SIGTERM, and SIG_IGN on SIGHUP.
`run_long_dictation_command` installs this table (main.py line 354). -/
def setup_signal_handlers : Sig → Disp
  | .sigint => .handler
  | .sigterm => .handler
  | .sighup => .ignored

/-- listenSignalTable models the only registration `run_listen_command`
performs: `signal.signal(signal.SIGINT, signal_handler)` (main.py line
180).  Every other signal keeps its inherited default disposition; the
function never calls `setup_signal_handlers`. -/
def listenSignalTable : Sig → Disp
  | .sigint => .handler
  | .sigterm => .dfl
  | .sighup => .dfl

/-- defaultTerminates records the POSIX default action of the three
signals: SIGINT, SIGTERM and SIGHUP all terminate the process by
default. -/
def defaultTerminates : Sig → Bool :=
  fun _ => true

/-- terminatesOnSignal says whether delivering the signal under the given
disposition table ends the process through the default action of the signal: an
ignored signal never does, a registered handler runs Python code instead of
the default action, and an unregistered signal acts per its default. -/
def terminatesOnSignal (d : Sig → Disp) (s : Sig) : Bool :=
  match d s with
  | .dfl => defaultTerminates s
  | .ignored => false
  | .handler => false

/-- segsLen is the total number of chunks across a list of segments. -/
def segsLen (ss : List (List Chunk)) : Nat :=
  (ss.map List.length).sum

/-- recInv is the chunk-accounting invariant of the `record_audio_with_vad`
loop: the chunks stored in the current segment and in the finished segments
never exceed the number of processed chunks, and while the machine is
waiting (and has not broken out of the loop) the current segment is empty
and the ring buffer plus the finished segments are similarly bounded. -/
def recInv (s : RecState) : Prop :=
  s.segFrames.length + segsLen s.segments ≤ s.total
  ∧ (s.isSpeaking = false → s.done = false →
      s.segFrames = [] ∧ s.preBuffer.length + segsLen s.segments ≤ s.total)

/-- streamInv is the chunk-accounting invariant of the
`stream_audio_with_vad` loop: yielded chunks plus buffered chunks never
exceed the number of processed chunks. -/
def streamInv (s : StreamState) : Prop :=
  s.yields.length + s.preBuffer.length ≤ s.total

lemma dequeAppend_subset {n : Nat} {xs : List α} {y x : α}
    (h : x ∈ dequeAppend n xs y) : x ∈ xs ++ [y] := by
  dsimp only [dequeAppend] at h
  exact List.drop_subset _ _ h

lemma dequeAppend_length_le (n : Nat) (xs : List α) (y : α) :
    (dequeAppend n xs y).length ≤ xs.length + 1 := by
  simp [dequeAppend]

lemma dequeAppend3_length_pos (xs : List ℚ) (y : ℚ) :
    0 < (dequeAppend 3 xs y).length := by
  simp [dequeAppend]
  omega

lemma smoothedOf_le {t v : ℚ} {h : List ℚ} (hm : ∀ x ∈ h, x ≤ t) (hv : v ≤ t) :
    smoothedOf (dequeAppend 3 h v) v ≤ t := by
  have hmem : ∀ x ∈ dequeAppend 3 h v, x ≤ t := by
    intro x hx
    rcases List.mem_append.1 (dequeAppend_subset hx) with h1 | h1
    · exact hm x h1
    · rw [List.mem_singleton] at h1
      exact h1 ▸ hv
  have hlen : 0 < (dequeAppend 3 h v).length := dequeAppend3_length_pos h v
  rw [smoothedOf, if_pos hlen, div_le_iff₀ (by exact_mod_cast hlen)]
  calc (dequeAppend 3 h v).sum
      ≤ (dequeAppend 3 h v).length • t := List.sum_le_card_nsmul _ _ hmem
    _ = t * ((dequeAppend 3 h v).length : ℚ) := by
        rw [nsmul_eq_mul, mul_comm]

lemma dequeAppend_mem_le {t : ℚ} {h : List ℚ} {v : ℚ}
    (hm : ∀ x ∈ h, x ≤ t) (hv : v ≤ t) :
    ∀ x ∈ dequeAppend 3 h v, x ≤ t := by
  intro x hx
  rcases List.mem_append.1 (dequeAppend_subset hx) with h1 | h1
  · exact hm x h1
  · rw [List.mem_singleton] at h1
    exact h1 ▸ hv

lemma recordStep_total_le (p : VadParams) (e : ReadEvent) (s : RecState) :
    (recordStep p e s).total ≤ s.total + 1 := by
  cases e <;> simp only [recordStep] <;> try omega
  split_ifs <;> simp

lemma recordRun_total_le (p : VadParams) :
    ∀ (es : List ReadEvent) (s : RecState),
      s.total ≤ p.maxTotal → (recordRun p es s).total ≤ p.maxTotal := by
  intro es
  induction es with
  | nil => intro s hs; exact hs
  | cons e es ih =>
    intro s hs
    rw [recordRun]
    split_ifs with hc
    · exact ih _ (le_trans (recordStep_total_le p e s) hc.2)
    · exact hs

lemma recordRun_halted (p : VadParams) {s : RecState}
    (h : ¬(s.done = false ∧ s.total < p.maxTotal)) :
    ∀ es : List ReadEvent, recordRun p es s = s := by
  intro es
  cases es with
  | nil => rfl
  | cons e es => rw [recordRun, if_neg h]

lemma recordRun_append (p : VadParams) :
    ∀ (es1 es2 : List ReadEvent) (s : RecState),
      recordRun p (es1 ++ es2) s = recordRun p es2 (recordRun p es1 s) := by
  intro es1
  induction es1 with
  | nil => intro es2 s; rfl
  | cons e es1 ih =>
    intro es2 s
    by_cases hc : s.done = false ∧ s.total < p.maxTotal
    · rw [List.cons_append, recordRun, if_pos hc, recordRun, if_pos hc, ih]
    · rw [List.cons_append, recordRun, if_neg hc, recordRun, if_neg hc,
        recordRun_halted p hc]

lemma streamStep_total_le (p : VadParams) (e : ReadEvent) (s : StreamState) :
    (streamStep p e s).total ≤ s.total + 1 := by
  cases e <;> simp only [streamStep] <;> try omega
  split_ifs <;> simp

lemma streamRun_total_le (p : VadParams) :
    ∀ (es : List ReadEvent) (s : StreamState),
      s.total ≤ p.maxTotal → (streamRun p es s).total ≤ p.maxTotal := by
  intro es
  induction es with
  | nil => intro s hs; exact hs
  | cons e es ih =>
    intro s hs
    rw [streamRun]
    split_ifs with hc
    · exact ih _ (le_trans (streamStep_total_le p e s) hc.2)
    · exact hs

lemma streamRun_halted (p : VadParams) {s : StreamState}
    (h : ¬(s.done = false ∧ s.total < p.maxTotal)) :
    ∀ es : List ReadEvent, streamRun p es s = s := by
  intro es
  cases es with
  | nil => rfl
  | cons e es => rw [streamRun, if_neg h]

lemma streamRun_append (p : VadParams) :
    ∀ (es1 es2 : List ReadEvent) (s : StreamState),
      streamRun p (es1 ++ es2) s = streamRun p es2 (streamRun p es1 s) := by
  intro es1
  induction es1 with
  | nil => intro es2 s; rfl
  | cons e es1 ih =>
    intro es2 s
    by_cases hc : s.done = false ∧ s.total < p.maxTotal
    · rw [List.cons_append, streamRun, if_pos hc, streamRun, if_pos hc, ih]
    · rw [List.cons_append, streamRun, if_neg hc, streamRun, if_neg hc,
        streamRun_halted p hc]

lemma segsLen_append (ss : List (List Chunk)) (u : List Chunk) :
    segsLen (ss ++ [u]) = segsLen ss + u.length := by
  simp [segsLen]

lemma length_le_segsLen {u : List Chunk} {ss : List (List Chunk)}
    (h : u ∈ ss) : u.length ≤ segsLen ss := by
  induction ss with
  | nil => cases h
  | cons v ss ih =>
    rcases List.mem_cons.1 h with h1 | h1
    · subst h1
      simp [segsLen]
    · have := ih h1
      simp only [segsLen, List.map_cons, List.sum_cons] at this ⊢
      omega

lemma recordStep_inv (p : VadParams) (e : ReadEvent) (s : RecState)
    (hg : s.done = false) (h : recInv s) : recInv (recordStep p e s) := by
  obtain ⟨h1, h2⟩ := h
  cases e with
  | overflow => exact ⟨h1, h2⟩
  | fatal =>
    refine ⟨h1, fun _ hdn => ?_⟩
    exact absurd hdn (by simp [recordStep])
  | ok c =>
    simp only [recordStep]
    split_ifs with hd hsm hspk hspk2 hbr
    · refine ⟨Nat.le_succ_of_le h1, fun ha hb => ?_⟩
      obtain ⟨hf, hpre⟩ := h2 ha hb
      exact ⟨hf, Nat.le_succ_of_le hpre⟩
    · refine ⟨?_, fun ha _ => ?_⟩
      · dsimp only
        simp only [List.length_append, List.length_cons, List.length_nil]
        omega
      · dsimp only at ha
        rw [hspk] at ha
        exact absurd ha (by decide)
    · rw [Bool.not_eq_true] at hspk
      obtain ⟨hf, hb⟩ := h2 hspk hg
      refine ⟨?_, fun ha _ => ?_⟩
      · dsimp only
        simp only [hf, List.nil_append, List.length_append, List.length_cons,
          List.length_nil]
        omega
      · dsimp only at ha
        exact absurd ha (by decide)
    · refine ⟨?_, fun _ hdn => ?_⟩
      · dsimp only
        rw [segsLen_append]
        simp only [List.length_append, List.length_cons, List.length_nil]
        omega
      · dsimp only at hdn
        exact absurd hdn (by decide)
    · refine ⟨?_, fun ha _ => ?_⟩
      · dsimp only
        simp only [List.length_append, List.length_cons, List.length_nil]
        omega
      · dsimp only at ha
        rw [hspk2] at ha
        exact absurd ha (by decide)
    · rw [Bool.not_eq_true] at hspk2
      obtain ⟨hf, hb⟩ := h2 hspk2 hg
      refine ⟨?_, fun _ _ => ?_⟩
      · dsimp only
        omega
      · refine ⟨hf, ?_⟩
        dsimp only
        have := dequeAppend_length_le p.numPrePad s.preBuffer c
        omega

lemma recordRun_inv (p : VadParams) :
    ∀ (es : List ReadEvent) (s : RecState), recInv s → recInv (recordRun p es s) := by
  intro es
  induction es with
  | nil => intro s hs; exact hs
  | cons e es ih =>
    intro s hs
    rw [recordRun]
    split_ifs with hc
    · exact ih _ (recordStep_inv p e s hc.1 hs)
    · exact hs

lemma streamStep_inv (p : VadParams) (e : ReadEvent) (s : StreamState)
    (h : streamInv s) : streamInv (streamStep p e s) := by
  unfold streamInv at h ⊢
  cases e with
  | overflow => exact h
  | fatal => exact h
  | ok c =>
    simp only [streamStep]
    split_ifs <;> dsimp only <;>
      try simp only [List.length_append, List.length_cons, List.length_nil]
    all_goals
      have := dequeAppend_length_le p.numPrePad s.preBuffer c
      omega

lemma streamRun_inv (p : VadParams) :
    ∀ (es : List ReadEvent) (s : StreamState),
      streamInv s → streamInv (streamRun p es s) := by
  intro es
  induction es with
  | nil => intro s hs; exact hs
  | cons e es ih =>
    intro s hs
    rw [streamRun]
    split_ifs with hc
    · exact ih _ (streamStep_inv p e s hs)
    · exact hs

lemma streamStep_empty_eq (p : VadParams) (c : Chunk) (s : StreamState)
    (hd : c.data.length / 2 = 0) :
    streamStep p (ReadEvent.ok c) s = { s with total := s.total + 1 } := by
  simp only [streamStep]
  rw [if_pos hd]

lemma streamStep_waiting_eq (p : VadParams) (c : Chunk) (s : StreamState)
    (hnv : p.noVad = false) (hd : ¬ c.data.length / 2 = 0)
    (hsm : ¬ smoothedOf (dequeAppend 3 s.volHist c.vol) c.vol > p.threshold)
    (hsp : ¬ s.isSpeaking = true) :
    streamStep p (ReadEvent.ok c) s =
      if s.speechPadded = false then
        { s with total := s.total + 1,
                 volHist := dequeAppend 3 s.volHist c.vol,
                 preBuffer := dequeAppend p.numPrePad s.preBuffer c }
      else
        { s with total := s.total + 1,
                 volHist := dequeAppend 3 s.volHist c.vol } := by
  simp only [streamStep]
  rw [if_neg hd, hnv]
  simp only [Bool.false_eq_true, if_false]
  rw [if_neg hsm, if_neg hsp]

lemma streamRun_silent (p : VadParams) (hnv : p.noVad = false) :
    ∀ (es : List ReadEvent) (s : StreamState),
      (∀ e ∈ es, ∃ c, e = ReadEvent.ok c ∧ c.vol ≤ p.threshold) →
      (∀ x ∈ s.volHist, x ≤ p.threshold) →
      s.isSpeaking = false →
      (streamRun p es s).yields = s.yields := by
  intro es
  induction es with
  | nil => intro s _ _ _; rfl
  | cons e es ih =>
    intro s hes hm hsp
    rw [streamRun]
    split_ifs with hc
    · obtain ⟨c, he, hcv⟩ := hes e (List.mem_cons_self e es)
      subst he
      by_cases hd : c.data.length / 2 = 0
      · rw [streamStep_empty_eq p c s hd]
        exact ih _ (fun e' he' => hes e' (List.mem_cons_of_mem _ he')) hm hsp
      · have hsm : ¬ smoothedOf (dequeAppend 3 s.volHist c.vol) c.vol > p.threshold :=
          not_lt.2 (smoothedOf_le hm hcv)
        have hsp' : ¬ s.isSpeaking = true := by simp [hsp]
        rw [streamStep_waiting_eq p c s hnv hd hsm hsp']
        split_ifs with hpad
        · exact ih _ (fun e' he' => hes e' (List.mem_cons_of_mem _ he'))
            (dequeAppend_mem_le hm hcv) hsp
        · exact ih _ (fun e' he' => hes e' (List.mem_cons_of_mem _ he'))
            (dequeAppend_mem_le hm hcv) hsp
    · rfl

lemma flatten_filter_data (cs : List Chunk) :
    ((cs.filter (fun c => !c.data.isEmpty)).map Chunk.data).flatten
      = (cs.map Chunk.data).flatten := by
  induction cs with
  | nil => rfl
  | cons c cs ih =>
    by_cases h : c.data = []
    · simp [List.filter_cons, h, ih]
    · simp [List.filter_cons, h, ih]

/-- C1 counterexample: a run of the listen command whose microphone stream
opens successfully and whose input is pure silence (five chunks of volume
0, below the threshold 200 the whole time) still opens a network connection
to the transcription backend, because the generator always yields the
sample rate before any speech decision and `run_listen_command` posts as
soon as it has a rate.  This falsifies the part of the claim that reads
"never opens a network connection". -/
theorem claim1_counterexample :
    (run_listen_command
        (stream_audio_with_vad ⟨200, 4, 46, 468⟩ true true
          (List.replicate 5 (ReadEvent.ok ⟨[0, 0], 0⟩)))
        (ServerResult.ok none)).networkOpened = true := by
  decide

/-- C1 amended: for every run of the listen command in which the microphone
stream opens successfully and the input volume stays at or below the
silence threshold for the entire capture (VAD mode, threshold nonzero), the
run completes as a success (exit code 0) with empty text when the backend
answers without a text field, but it does open one network connection to
the backend, whose body consists of the metadata line only and carries no
audio bytes. -/
theorem claim1_theorem (p : VadParams) (es : List ReadEvent)
    (hnv : p.noVad = false)
    (hes : ∀ e ∈ es, ∃ c, e = ReadEvent.ok c ∧ c.vol ≤ p.threshold) :
    (run_listen_command (stream_audio_with_vad p true true es)
        (ServerResult.ok none)).networkOpened = true
    ∧ (run_listen_command (stream_audio_with_vad p true true es)
        (ServerResult.ok none)).exitCode = 0
    ∧ (run_listen_command (stream_audio_with_vad p true true es)
        (ServerResult.ok none)).text = ""
    ∧ (run_listen_command (stream_audio_with_vad p true true es)
        (ServerResult.ok none)).body
        = asciiBytes (jsonRateObj 16000) ++ [10] := by
  have hy : (streamRun p es streamInit).yields = [] :=
    streamRun_silent p hnv es streamInit hes (by intro x hx; cases hx) rfl
  refine ⟨?_, ?_, ?_, ?_⟩ <;>
    simp [stream_audio_with_vad, hy, run_listen_command, requestBody,
      requestBodyChunks, chunkItems, pyStrip]

/-- C1 witness: the amended theorem applied to a one-chunk silent input at
the default threshold. -/
theorem claim1_witness :
    (run_listen_command
        (stream_audio_with_vad ⟨200, 4, 46, 468⟩ true true
          [ReadEvent.ok ⟨[0, 0], 0⟩])
        (ServerResult.ok none)).exitCode = 0 :=
  (claim1_theorem ⟨200, 4, 46, 468⟩ [ReadEvent.ok ⟨[0, 0], 0⟩] (by decide)
    (by
      intro e he
      rw [List.mem_singleton] at he
      exact ⟨⟨[0, 0], 0⟩, he, by norm_num⟩)).2.1

/-- C2 counterexample: in `record_audio_with_vad`, after a silent chunk
followed by a loud chunk (smoothed volume 500 above the threshold 200), the
utterance under construction starts with the ring-buffer chunk followed by
the triggering chunk, but the ring buffer still holds its chunk: it is NOT
cleared after being flushed, falsifying the part of the claim that reads
"cleared immediately after being flushed ... holds for both". -/
theorem claim2_counterexample :
    (recordRun ⟨200, 4, 46, 468⟩
        [ReadEvent.ok ⟨[0, 0], 0⟩, ReadEvent.ok ⟨[1, 1], 1000⟩]
        initState).segFrames = [⟨[0, 0], 0⟩, ⟨[1, 1], 1000⟩]
    ∧ (recordRun ⟨200, 4, 46, 468⟩
        [ReadEvent.ok ⟨[0, 0], 0⟩, ReadEvent.ok ⟨[1, 1], 1000⟩]
        initState).preBuffer = [⟨[0, 0], 0⟩] := by
  norm_num [recordRun, recordStep, initState, dequeAppend, smoothedOf]

/-- C2 amended: on the WAITING→SPEAKING transition (smoothed volume first
exceeds the threshold), both segmenters emit the full contents of the
pre-speech ring buffer followed by the triggering chunk;
`stream_audio_with_vad` clears the ring buffer immediately after flushing
it, while `record_audio_with_vad` leaves the flushed buffer contents in
place (its clear call is commented out). -/
theorem claim2_theorem (p : VadParams) (s : RecState) (t : StreamState)
    (c : Chunk)
    (hnv : p.noVad = false)
    (hrs : s.isSpeaking = false) (hseg : s.segFrames = [])
    (hts : t.isSpeaking = false)
    (hdata : ¬ c.data.length / 2 = 0)
    (hsm1 : smoothedOf (dequeAppend 3 s.volHist c.vol) c.vol > p.threshold)
    (hsm2 : smoothedOf (dequeAppend 3 t.volHist c.vol) c.vol > p.threshold) :
    (recordStep p (ReadEvent.ok c) s).segFrames = s.preBuffer ++ [c]
    ∧ (recordStep p (ReadEvent.ok c) s).isSpeaking = true
    ∧ (recordStep p (ReadEvent.ok c) s).preBuffer = s.preBuffer
    ∧ (streamStep p (ReadEvent.ok c) t).yields = t.yields ++ t.preBuffer ++ [c]
    ∧ (streamStep p (ReadEvent.ok c) t).isSpeaking = true
    ∧ (streamStep p (ReadEvent.ok c) t).preBuffer = [] := by
  refine ⟨?_, ?_, ?_, ?_, ?_, ?_⟩ <;>
    simp [recordStep, streamStep, hdata, hsm1, hsm2, hrs, hts, hseg, hnv]

/-- C2 witness: the amended theorem applied to a concrete waiting state
holding one buffered chunk and a loud triggering chunk. -/
theorem claim2_witness :
    (recordStep ⟨200, 4, 46, 468⟩ (ReadEvent.ok ⟨[1, 1], 1000⟩)
        ⟨[⟨[0, 0], 0⟩], [], [], false, 0, [0], 1, false⟩).preBuffer
      = [⟨[0, 0], 0⟩] :=
  (claim2_theorem ⟨200, 4, 46, 468⟩
      ⟨[⟨[0, 0], 0⟩], [], [], false, 0, [0], 1, false⟩
      ⟨[⟨[0, 0], 0⟩], [], false, false, 0, [0], 1, false⟩
      ⟨[1, 1], 1000⟩
      (by decide) rfl rfl rfl (by norm_num)
      (by norm_num [smoothedOf, dequeAppend])
      (by norm_num [smoothedOf, dequeAppend])).2.2.1

/-- C5 counterexample: with the configured band [6000, 7000] and a single
zero-volume sample, the calibration returns 5000 — which is neither inside
the configured band nor equal to the 95th percentile clamped to that band
(that would be 6000) — because the return statement additionally clamps to
the hard-coded band [50, 5000]. -/
theorem claim5_counterexample :
    calibrate_microphone 6000 7000 500 true true [0] = 5000
    ∧ ¬ (6000 ≤ calibrate_microphone 6000 7000 500 true true [0])
    ∧ calibrate_microphone 6000 7000 500 true true [0]
        ≠ min (max (percentile [0] 95) 6000) 7000 := by
  have h : calibrate_microphone 6000 7000 500 true true [0]
      = max 50 (min (min (max (percentile [0] 95) 6000) 7000) 5000) := by
    simp [calibrate_microphone]
  have hp : percentile [0] 95 = 0 := by
    norm_num [percentile, List.insertionSort, List.orderedInsert]
  rw [h, hp]
  norm_num [max_def, min_def]

/-- C5 amended: calibration returns the 95th percentile of the volume
samples clamped to the configured band and then additionally clamped to
the hard-coded band [50, 5000]; whenever the configured band meets
[50, 5000] (threshold_min ≤ 5000 and threshold_max ≥ 50), the result lies
within the configured band for every nonempty input distribution, and at
the default band [50, 5000] the result is exactly the percentile clamped
to the band. -/
theorem claim5_theorem (tmin tmax fallback : ℚ) (volumes : List ℚ)
    (h1 : tmin ≤ tmax) (h2 : tmin ≤ 5000) (h3 : 50 ≤ tmax)
    (hv : volumes ≠ []) :
    tmin ≤ calibrate_microphone tmin tmax fallback true true volumes
    ∧ calibrate_microphone tmin tmax fallback true true volumes ≤ tmax
    ∧ calibrate_microphone 50 5000 fallback true true volumes
        = min (max (percentile volumes 95) 50) 5000 := by
  have heq : ∀ a b : ℚ, calibrate_microphone a b fallback true true volumes
      = max 50 (min (min (max (percentile volumes 95) a) b) 5000) := by
    intro a b
    simp [calibrate_microphone, hv]
  rw [heq, heq]
  refine ⟨?_, ?_, ?_⟩
  · exact le_trans
      (le_min (le_min (le_max_right (percentile volumes 95) tmin) h1) h2)
      (le_max_right 50 _)
  · exact max_le h3 (le_trans (min_le_left _ _) (min_le_right _ _))
  · rw [min_assoc, min_self]
    exact max_eq_right
      (le_min (le_max_right (percentile volumes 95) 50) (by norm_num))

/-- C5 witness: the amended theorem applied at the default band and the
all-zero one-sample distribution. -/
theorem claim5_witness :
    (50 : ℚ) ≤ calibrate_microphone 50 5000 500 true true [0] :=
  (claim5_theorem 50 5000 500 [0] (by norm_num) (by norm_num) (by norm_num)
    (by simp)).1

/-- C3: while the segmenter is SPEAKING, every successfully read chunk —
speech or silence — is appended to the utterance (for the stream machine,
yielded); the consecutive-silence counter resets to 0 whenever the smoothed
volume exceeds the threshold; and the utterance terminates (the loop breaks)
exactly when the incremented counter exceeds the configured silence chunk
count, with the trailing silence chunk appended before the break retained
as part of the utterance.  Holds for both machines. -/
theorem claim3_theorem (p : VadParams) (s : RecState) (t : StreamState)
    (c : Chunk)
    (hnv : p.noVad = false)
    (hrs : s.isSpeaking = true) (hts : t.isSpeaking = true)
    (hdata : ¬ c.data.length / 2 = 0) :
    (smoothedOf (dequeAppend 3 s.volHist c.vol) c.vol > p.threshold →
        (recordStep p (ReadEvent.ok c) s).segFrames = s.segFrames ++ [c]
        ∧ (recordStep p (ReadEvent.ok c) s).silentCount = 0
        ∧ (recordStep p (ReadEvent.ok c) s).done = s.done)
    ∧ (¬ smoothedOf (dequeAppend 3 s.volHist c.vol) c.vol > p.threshold →
        ((s.silentCount + 1 > p.maxSilent →
            (recordStep p (ReadEvent.ok c) s).segments
              = s.segments ++ [s.segFrames ++ [c]]
            ∧ (recordStep p (ReadEvent.ok c) s).done = true)
        ∧ (¬ s.silentCount + 1 > p.maxSilent →
            (recordStep p (ReadEvent.ok c) s).segFrames = s.segFrames ++ [c]
            ∧ (recordStep p (ReadEvent.ok c) s).silentCount = s.silentCount + 1
            ∧ (recordStep p (ReadEvent.ok c) s).done = s.done)))
    ∧ (smoothedOf (dequeAppend 3 t.volHist c.vol) c.vol > p.threshold →
        (streamStep p (ReadEvent.ok c) t).yields = t.yields ++ [c]
        ∧ (streamStep p (ReadEvent.ok c) t).silentCount = 0
        ∧ (streamStep p (ReadEvent.ok c) t).done = t.done)
    ∧ (¬ smoothedOf (dequeAppend 3 t.volHist c.vol) c.vol > p.threshold →
        (streamStep p (ReadEvent.ok c) t).yields = t.yields ++ [c]
        ∧ (t.silentCount + 1 > p.maxSilent →
            (streamStep p (ReadEvent.ok c) t).done = true)
        ∧ (¬ t.silentCount + 1 > p.maxSilent →
            (streamStep p (ReadEvent.ok c) t).silentCount = t.silentCount + 1
            ∧ (streamStep p (ReadEvent.ok c) t).done = t.done)) := by
  refine ⟨fun hsm => ?_, fun hsm => ⟨fun hbr => ?_, fun hbr => ?_⟩,
    fun hsm => ?_, fun hsm => ⟨?_, fun hbr => ?_, fun hbr => ?_⟩⟩
  · refine ⟨?_, ?_, ?_⟩ <;> simp [recordStep, hdata, hsm, hrs]
  · refine ⟨?_, ?_⟩ <;> simp [recordStep, hdata, hsm, hrs, hbr]
  · refine ⟨?_, ?_, ?_⟩ <;> simp [recordStep, hdata, hsm, hrs, hbr]
  · refine ⟨?_, ?_, ?_⟩ <;> simp [streamStep, hdata, hsm, hts, hnv]
  · by_cases hbr : t.silentCount + 1 > p.maxSilent <;>
      simp [streamStep, hdata, hsm, hts, hnv, hbr]
  · simp [streamStep, hdata, hsm, hts, hnv, hbr]
  · refine ⟨?_, ?_⟩ <;> simp [streamStep, hdata, hsm, hts, hnv, hbr]

/-- C3 witness: the theorem applied to concrete speaking states and a loud
chunk, yielding the counter reset. -/
theorem claim3_witness :
    (recordStep ⟨200, 4, 46, 468⟩ (ReadEvent.ok ⟨[1, 1], 1000⟩)
        ⟨[], [], [⟨[0, 0], 0⟩], true, 3, [0], 5, false⟩).silentCount = 0 :=
  ((claim3_theorem ⟨200, 4, 46, 468⟩
      ⟨[], [], [⟨[0, 0], 0⟩], true, 3, [0], 5, false⟩
      ⟨[], [⟨[0, 0], 0⟩], true, true, 3, [0], 5, false⟩
      ⟨[1, 1], 1000⟩
      (by decide) rfl rfl (by norm_num)).1
    (by norm_num [smoothedOf, dequeAppend])).2.1

/-- C4: with the parameters both segmenters derive from a finite maximum
duration, the number of processed chunks never exceeds the derived chunk
budget `int(maxDuration * RATE / CHUNK)` regardless of the volume pattern
of the input; every emitted utterance is at most that many chunks long (for the
stream machine, at most that many chunks are yielded); once the budget is
reached the loop reads no further events; and audio captured but not yet
finalized when the loop ends is flushed as an utterance rather than
dropped. -/
theorem claim4_theorem (th pre sd md : ℚ) (ms : Nat) (es es2 : List ReadEvent) :
    ((recordRun (recordVadParams th pre sd md) es initState).total
        ≤ chunksOfDuration md 16000 1024)
    ∧ (∀ u ∈ recordUtterances (recordVadParams th pre sd md) es,
        u.length ≤ chunksOfDuration md 16000 1024)
    ∧ ((recordRun (recordVadParams th pre sd md) es initState).segFrames ≠ [] →
        (recordRun (recordVadParams th pre sd md) es initState).segFrames
          ∈ recordUtterances (recordVadParams th pre sd md) es)
    ∧ (¬ (recordRun (recordVadParams th pre sd md) es initState).total
          < chunksOfDuration md 16000 1024 →
        recordRun (recordVadParams th pre sd md) (es ++ es2) initState
          = recordRun (recordVadParams th pre sd md) es initState)
    ∧ ((streamRun (streamVadParams th pre sd md ms) es streamInit).total
        ≤ chunksOfDuration md 16000 (16000 * ms / 1000))
    ∧ ((streamRun (streamVadParams th pre sd md ms) es streamInit).yields.length
        ≤ chunksOfDuration md 16000 (16000 * ms / 1000)) := by
  have hinv : recInv (recordRun (recordVadParams th pre sd md) es initState) :=
    recordRun_inv _ es initState (by simp [recInv, initState, segsLen])
  have htot : (recordRun (recordVadParams th pre sd md) es initState).total
      ≤ chunksOfDuration md 16000 1024 :=
    recordRun_total_le _ es initState (Nat.zero_le _)
  have hsinv : streamInv (streamRun (streamVadParams th pre sd md ms) es streamInit) :=
    streamRun_inv _ es streamInit (by simp [streamInv, streamInit])
  have hstot : (streamRun (streamVadParams th pre sd md ms) es streamInit).total
      ≤ chunksOfDuration md 16000 (16000 * ms / 1000) :=
    streamRun_total_le _ es streamInit (Nat.zero_le _)
  have hacc := hinv.1
  have hsacc : (streamRun (streamVadParams th pre sd md ms) es streamInit).yields.length
      + (streamRun (streamVadParams th pre sd md ms) es streamInit).preBuffer.length
      ≤ (streamRun (streamVadParams th pre sd md ms) es streamInit).total := hsinv
  refine ⟨htot, ?_, ?_, ?_, hstot, ?_⟩
  · intro u hu
    rw [recordUtterances] at hu
    split_ifs at hu with hsf
    · have := length_le_segsLen hu
      omega
    · rcases List.mem_append.1 hu with h | h
      · have := length_le_segsLen h
        omega
      · rw [List.mem_singleton] at h
        subst h
        omega
  · intro hne
    rw [recordUtterances]
    rw [if_neg hne]
    exact List.mem_append_right _ (List.mem_singleton_self _)
  · intro hstop
    rw [recordRun_append]
    exact recordRun_halted _ (fun hc => hstop hc.2) es2
  · omega

/-- C4 witness: the theorem applied to a one-loud-chunk input with a budget
of two chunks; the in-progress utterance at end of input is flushed. -/
theorem claim4_witness :
    (recordRun (recordVadParams 200 0 0 (16/125))
        [ReadEvent.ok ⟨[1, 1], 1000⟩] initState).segFrames
      ∈ recordUtterances (recordVadParams 200 0 0 (16/125))
          [ReadEvent.ok ⟨[1, 1], 1000⟩] :=
  (claim4_theorem 200 0 0 (16/125) 30 [ReadEvent.ok ⟨[1, 1], 1000⟩] []).2.2.1
    (by norm_num [recordRun, recordStep, recordVadParams, chunksOfDuration,
      initState, dequeAppend, smoothedOf, Int.toNat_ofNat])

/-- C6: during capture, an overflow read error leaves the machine state
untouched (only that chunk is skipped) and the loop continues with the next
read, while any other OS read error makes the loop break immediately with
the state otherwise unchanged; the audio captured before such an error is
finalized into the returned utterance list exactly as it stood, rather than
discarded. -/
theorem claim6_theorem (p : VadParams) (es es2 : List ReadEvent)
    (s : RecState) (t : StreamState)
    (hd : s.done = false) (htot : s.total < p.maxTotal)
    (hfd : (recordRun p es initState).done = false)
    (hft : (recordRun p es initState).total < p.maxTotal) :
    recordStep p ReadEvent.overflow s = s
    ∧ streamStep p ReadEvent.overflow t = t
    ∧ recordRun p (ReadEvent.overflow :: es2) s = recordRun p es2 s
    ∧ recordRun p (ReadEvent.fatal :: es2) s = { s with done := true }
    ∧ recordUtterances p (es ++ ReadEvent.fatal :: es2) = recordUtterances p es
    ∧ ((recordRun p es initState).segFrames ≠ [] →
        (recordRun p es initState).segFrames
          ∈ recordUtterances p (es ++ ReadEvent.fatal :: es2)) := by
  have h5 : recordRun p (es ++ ReadEvent.fatal :: es2) initState
      = { recordRun p es initState with done := true } := by
    rw [recordRun_append, recordRun, if_pos ⟨hfd, hft⟩]
    exact recordRun_halted p (by simp [recordStep]) es2
  refine ⟨rfl, rfl, ?_, ?_, ?_, ?_⟩
  · rw [recordRun, if_pos ⟨hd, htot⟩]
    rfl
  · rw [recordRun, if_pos ⟨hd, htot⟩]
    exact recordRun_halted p (by simp [recordStep]) es2
  · rw [recordUtterances, recordUtterances, h5]
  · intro hne
    rw [recordUtterances, h5]
    rw [if_neg hne]
    exact List.mem_append_right _ (List.mem_singleton_self _)

/-- C6 witness: the theorem applied to a concrete mid-capture state and a
one-chunk captured prefix; the fatal error aborts and the captured chunk is
kept. -/
theorem claim6_witness :
    recordUtterances ⟨200, 0, 46, 468⟩
        ([ReadEvent.ok ⟨[1, 1], 1000⟩] ++ ReadEvent.fatal :: [])
      = recordUtterances ⟨200, 0, 46, 468⟩ [ReadEvent.ok ⟨[1, 1], 1000⟩] :=
  (claim6_theorem ⟨200, 0, 46, 468⟩ [ReadEvent.ok ⟨[1, 1], 1000⟩] []
      initState streamInit rfl (by norm_num [initState])
      (by norm_num [recordRun, recordStep, initState, dequeAppend, smoothedOf])
      (by norm_num [recordRun, recordStep, initState, dequeAppend,
        smoothedOf])).2.2.2.2.1

/-- C7: the HTTP request body sent to the transcription backend is exactly
one UTF-8 JSON line with the sample rate, terminated by a single newline
(byte 10), followed by the raw concatenation of all yielded audio chunk
bytes with no further framing; and a successful JSON response without the
"text" field yields the empty transcription with exit code 0, treated as
success rather than an error. -/
theorem claim7_theorem (r : Nat) (cs : List Chunk) (items : List StreamItem) :
    requestBody r cs
      = asciiBytes (jsonRateObj r) ++ [10] ++ (cs.map Chunk.data).flatten
    ∧ (run_listen_command (StreamItem.rate r :: items)
        (ServerResult.ok none)).text = ""
    ∧ (run_listen_command (StreamItem.rate r :: items)
        (ServerResult.ok none)).exitCode = 0 := by
  refine ⟨?_, rfl, rfl⟩
  simp [requestBody, requestBodyChunks, flatten_filter_data cs]

/-- C8: `is_running` returns (False, None) without touching the PID file
when the file is absent; deletes the stale PID file and returns
(False, None) when the recorded PID is not live; does the same when the PID
is live but its command line does not identify a talkat process; and
returns (True, pid) only when the PID file names a live process whose
/proc cmdline exists and contains "talkat". -/
theorem claim8_theorem (env : PidEnv) (pid : Nat) :
    (env.pidFilePresent = false →
      is_running env = ⟨false, none, false⟩)
    ∧ (env.pidFilePresent = true → env.pidFileValue = some pid →
        env.alive pid = false →
        is_running env = ⟨false, none, true⟩)
    ∧ (env.pidFilePresent = true → env.pidFileValue = some pid →
        env.alive pid = true →
        (env.cmdlinePresent pid && isTalkatCmdline (env.cmdline pid)) = false →
        is_running env = ⟨false, none, true⟩)
    ∧ ((is_running env).running = true →
        ∃ q, env.pidFilePresent = true ∧ env.pidFileValue = some q
          ∧ env.alive q = true ∧ env.cmdlinePresent q = true
          ∧ isTalkatCmdline (env.cmdline q) = true
          ∧ (is_running env).pid = some q
          ∧ (is_running env).removedPidFile = false) := by
  refine ⟨?_, ?_, ?_, ?_⟩
  · intro h1
    simp [is_running, h1]
  · intro h1 h2 h3
    simp [is_running, h1, h2, h3]
  · intro h1 h2 h3 h4
    simp [is_running, h1, h2, h3, h4]
  · intro h
    cases hpb : env.pidFilePresent with
    | false => simp [is_running, hpb] at h
    | true =>
      cases hv : env.pidFileValue with
      | none => simp [is_running, hpb, hv] at h
      | some q =>
        cases hal : env.alive q with
        | false => simp [is_running, hpb, hv, hal] at h
        | true =>
          cases hcm : env.cmdlinePresent q && isTalkatCmdline (env.cmdline q) with
          | false => simp [is_running, hpb, hv, hal, hcm] at h
          | true =>
            obtain ⟨h1, h2⟩ := (Bool.and_eq_true _ _).mp hcm
            refine ⟨q, rfl, rfl, hal, h1, h2, ?_, ?_⟩
            · simp [is_running, hpb, hv, hal, hcm]
            · simp [is_running, hpb, hv, hal, hcm]

/-- C8 witness: the theorem applied to an environment whose PID file names
the dead PID 7. -/
theorem claim8_witness :
    is_running ⟨true, some 7, fun _ => false, fun _ => false, fun _ => []⟩
      = ⟨false, none, true⟩ :=
  (claim8_theorem ⟨true, some 7, fun _ => false, fun _ => false, fun _ => []⟩
      7).2.1 rfl rfl rfl

/-- C9 counterexample: the claim states that a SIGHUP delivered to every
registered capture process is ignored and never terminates it; but the
listen process only registers a SIGINT handler, so SIGHUP keeps its default
disposition there, and the default action of SIGHUP terminates the
process. -/
theorem claim9_counterexample :
    listenSignalTable Sig.sighup ≠ Disp.ignored
    ∧ terminatesOnSignal listenSignalTable Sig.sighup = true :=
  ⟨by decide, rfl⟩

/-- C9 amended: SIGHUP is ignored (and never terminates the process) in the
long-dictation process, which installs `setup_signal_handlers`; the listen
process registers only a SIGINT handler, leaving SIGHUP at its default
terminating disposition. -/
theorem claim9_theorem :
    setup_signal_handlers Sig.sighup = Disp.ignored
    ∧ terminatesOnSignal setup_signal_handlers Sig.sighup = false
    ∧ listenSignalTable Sig.sighup = Disp.dfl
    ∧ terminatesOnSignal listenSignalTable Sig.sighup = true :=
  ⟨rfl, rfl, rfl, rfl⟩

/-- C10: whenever `stream_audio_with_vad` opens the microphone stream
successfully, the first item it yields is the sample rate 16000, for every
event trace — in particular before any chunk is read or any
speech-versus-silence decision is made, so a consumer drawing one item
observes the rate even for an input containing no speech; and the generator
yields nothing at all exactly in the two failure cases: no microphone found
or stream open failure. -/
theorem claim10_theorem (p : VadParams) (es : List ReadEvent) (b : Bool) :
    (stream_audio_with_vad p true true es).head? = some (StreamItem.rate 16000)
    ∧ stream_audio_with_vad p false b es = []
    ∧ stream_audio_with_vad p true false es = [] :=
  ⟨rfl, rfl, rfl⟩

end Talkat
